import Mathlib

/-!
Verification development for the LUTools repository: a shallow embedding of
the color codec (color.hpp), the coordinate mapper, span sampler, LUT
builder and cache loader (lut.hpp), the cube exporter (cube.hpp) and the
batch applier (main.cpp), together with theorems settling the stated
properties of the specification.
-/

namespace Lutools

/-- Size of the dense LUT: 256 * 256 * 256 entries (lut.hpp line 14). -/
def LUT_RAW_DATA_SIZE : Nat := 256 * 256 * 256

/-- POD RGBA color (color.hpp lines 14-61): four 8-bit channels. Channels are
modelled as Nat; every channel the program ever produces is below 256. -/
structure Color where
  r : Nat
  g : Nat
  b : Nat
  a : Nat
deriving DecidableEq

instance : Inhabited Color := ⟨⟨0, 0, 0, 0⟩⟩

/-- Channel accessor Color::operator[] (color.hpp lines 25-38): returns 0 for
an out-of-range channel index rather than failing. -/
def Color.channel (c : Color) (i : Nat) : Nat :=
  match i with
  | 0 => c.r
  | 1 => c.g
  | 2 => c.b
  | 3 => c.a
  | _ => 0

/-- Color::getHexRGB (color.hpp lines 48-50): (r << 16) | (g << 8) | b. -/
def Color.getHexRGB (c : Color) : Nat :=
  (c.r <<< 16) ||| (c.g <<< 8) ||| c.b

/-- The color with hexRGB index n and opaque alpha: exactly the colors the
build loop of cacheLUTMap enumerates (lut.hpp lines 82-94), decoded from the
dense-LUT array index n. -/
def rgbOfHex (n : Nat) : Color :=
  ⟨n / 65536 % 256, n / 256 % 256, n % 256, 255⟩

/-- rgbToMapPosition (lut.hpp lines 21-32; byte-identical copy rgbToPosition
in main.cpp lines 17-28). axis is an unsigned char, so "axis += 3" wraps
modulo 256. Channel indices: a = axis % 3 and h = (axis + 1) % 3 are
computed on nonnegative values; v = (axis - 1) % 3 is computed in int and
narrowed back to unsigned char, so for axis = 0 it is (-1) % 3 = -1 which
narrows to 255 (an out-of-range channel index, read as 0 by operator[]),
and for axis >= 1 it is the plain (axis - 1) % 3. On these 8-bit
nonnegative values "x >> 4" is x / 16, "x & 15" is x % 16, "x & 1" is
x % 2 and "r << 8" is r * 256 (the source comments state the same). -/
def rgbToMapPosition (color : Color) (axis : Nat) (flip : Bool) : Nat × Nat :=
  let axis2 := (axis + 3) % 256
  let a := axis2 % 3
  let h := (axis2 + 1) % 3
  let v := if axis2 = 0 then 255 else (axis2 - 1) % 3
  let quot := color.channel a / 16
  let rem := color.channel a % 16
  (rem * 256 + (if flip ∧ color.channel a % 2 = 1 then 255 - color.channel h else color.channel h),
   quot * 256 + (if flip ∧ quot % 2 = 1 then 255 - color.channel v else color.channel v))

/-- Inverse of the coordinate mapper, used to establish its bijectivity:
recover the hexRGB index of the unique color a canvas position encodes. -/
def mapPositionToHex (p : Nat × Nat) (axis : Nat) (flip : Bool) : Nat :=
  let axis2 := (axis + 3) % 256
  let a := axis2 % 3
  let h := (axis2 + 1) % 3
  let rem := p.1 / 256
  let quot := p.2 / 256
  let slice := quot * 16 + rem
  let ch := if flip ∧ slice % 2 = 1 then 255 - p.1 % 256 else p.1 % 256
  let cv := if flip ∧ quot % 2 = 1 then 255 - p.2 % 256 else p.2 % 256
  let chanVal := fun i => if i = a then slice else if i = h then ch else cv
  chanVal 0 * 65536 + chanVal 1 * 256 + chanVal 2

/-- Decoded raster image (image.hpp): width and height as reported by the
codec collaborator (both positive after a successful load, image.hpp lines
60-66), and the pixel buffer, modelled as a function of the (x, y)
position. -/
structure Image where
  w : Int
  h : Int
  pix : Int → Int → Color

/-- Image::at (image.hpp lines 101-109), named atXY here because "at" is a
reserved word: out-of-range coordinates clamp to the nearest edge, first x
against width, then y against height. -/
def Image.atXY (img : Image) (x y : Int) : Color :=
  let x1 := if x ≥ img.w then img.w - 1 else x
  let x2 := if x1 < 0 then 0 else x1
  let y1 := if y ≥ img.h then img.h - 1 else y
  let y2 := if y1 < 0 then 0 else y1
  img.pix x2 y2

/-- Axis selection from the secondary filename extension (lut.hpp lines
65-73): default axis is B (2); an "r" annotation selects 0, "g" selects 1. -/
def axisOfAnnot (annot : String) : Nat :=
  if annot = "r" then 0 else if annot = "g" then 1 else 2

/-- The dimension check and sampling loop of cacheLUTMap (lut.hpp lines
60-94; the same code appears in convertMap, main.cpp lines 81-115). The
lutmap is already decoded (the codec is an external collaborator) and the
axis has been chosen from the filename by axisOfAnnot. The check on lut.hpp
line 62 rejects the map only when BOTH dimensions differ from 4096. On
success the triple loop stores the sampled color
map.at(rgbToMapPosition(rgba, axis, true)) at index rgba.getHexRGB(), which
equals r * 65536 + g * 256 + b (theorem Color.getHexRGB_eq) and runs
bijectively over 0..16777215 as (r, g, b) runs over the loop domain
(theorem getHexRGB_rgbOfHex), so the filled array is the function of the
index n sampling at the position of the color decoded from n. Persistence
of the finished array is modelled separately by persistLUT. -/
def cacheLUTMap (map : Image) (axis : Nat) : Except String (Nat → Color) :=
  if map.w ≠ 4096 ∧ map.h ≠ 4096 then
    Except.error "LUT map size must be 4096 x 4096"
  else
    Except.ok fun n =>
      map.atXY ((rgbToMapPosition (rgbOfHex n) axis true).1 : Int)
        ((rgbToMapPosition (rgbOfHex n) axis true).2 : Int)

/-- A lutmap image of width 4096 but height 1: not a 4096 x 4096 image. -/
def exImgWrongHeight : Image :=
  ⟨4096, 1, fun _ _ => ⟨0, 0, 0, 255⟩⟩

/-- A 4096 x 4096 lutmap image every pixel of which is fully transparent. -/
def exImgTransparent : Image :=
  ⟨4096, 4096, fun _ _ => ⟨7, 7, 7, 0⟩⟩

/-- A 4096 x 4096 lutmap image every pixel of which is opaque. -/
def exImgOpaque : Image :=
  ⟨4096, 4096, fun _ _ => ⟨1, 2, 3, 255⟩⟩

/-- Memory layout of one Color record: the bytes r, g, b, a in this order
(color.hpp: a standard-layout struct of four unsigned chars, no padding),
as written by the raw ofstream::write of the array (lut.hpp lines 103-105)
and read back by ifstream::read (lut.hpp line 135). -/
def serializeColor (c : Color) : List Nat :=
  [c.r, c.g, c.b, c.a]

/-- The byte stream cacheLUTMap writes when an output path is given
(lut.hpp lines 96-107): the raw array, i.e. all 16777216 entries in index
order, four bytes each, no header. The in-memory dense LUT is modelled as
the list of its entries in index order. -/
def persistLUT (data : List Color) : List Nat :=
  data.flatMap serializeColor

/-- Reinterpretation of a byte buffer as consecutive Color records (the
reinterpret_cast on lut.hpp line 135). -/
def bytesToColors : List Nat → List Color
  | r :: g :: b :: a :: rest => ⟨r, g, b, a⟩ :: bytesToColors rest
  | _ => []

/-- loadCacheFromFile (lut.hpp lines 120-146; the same code runs inline in
main, main.cpp lines 219-235). The file is modelled as none when it cannot
be opened and as the list of its bytes otherwise. The C++ read of exactly
LUT_RAW_DATA_SIZE * 4 bytes raises the stream failure bit exactly when the
file holds fewer bytes, which throws; trailing extra bytes are never read.
The catch block (lut.hpp lines 141-144) deletes the partially filled
buffer and rethrows, so on error no table reaches the caller. -/
def loadCacheFromFile (file : Option (List Nat)) : Except String (List Color) :=
  match file with
  | none => Except.error "unable to open LUT file"
  | some bytes =>
    if bytes.length < LUT_RAW_DATA_SIZE * 4 then Except.error "invalid LUT file"
    else Except.ok (bytesToColors (bytes.take (LUT_RAW_DATA_SIZE * 4)))

/-- std::round: round half away from zero; on a nonnegative argument this
is the floor of q + 1/2, and a negative argument is mirrored. The floor is
spelled out as num / den (integer division) so that the function evaluates
by kernel reduction; theorem roundHalfAway_eq_floor relates it to the
mathematical floor. -/
def roundHalfAway (q : ℚ) : Int :=
  if q < 0 then -((-q + 1 / 2).num / ((-q + 1 / 2).den : Int))
  else (q + 1 / 2).num / ((q + 1 / 2).den : Int)

/-- Equality of load or computation results is decidable. -/
instance {α β : Type} [DecidableEq α] [DecidableEq β] : DecidableEq (Except α β) :=
  fun x y =>
  match x, y with
  | Except.ok p, Except.ok q =>
    if h : p = q then isTrue (by rw [h]) else isFalse (fun hc => h (Except.ok.inj hc))
  | Except.error p, Except.error q =>
    if h : p = q then isTrue (by rw [h]) else isFalse (fun hc => h (Except.error.inj hc))
  | Except.ok p, Except.error q => isFalse (fun hc => Except.noConfusion hc)
  | Except.error p, Except.ok q => isFalse (fun hc => Except.noConfusion hc)

/-- The sampling loop of sampleSpan (lut.hpp lines 45-51): push round(v)
then advance v by step, n times. The C++ double arithmetic is modelled as
exact rational arithmetic. -/
def sampleSpanAux (v step : ℚ) : Nat → List Int
  | 0 => []
  | n + 1 => roundHalfAway v :: sampleSpanAux (v + step) step n

/-- sampleSpan (lut.hpp lines 39-53; byte-identical copy in main.cpp lines
30-44): fails when samples < 2, else returns samples points starting at
begin and stepping by (end - begin) * (1 / (samples - 1)), each rounded to
the nearest integer. int and double arithmetic are modelled as unbounded
integer and exact rational arithmetic. -/
def sampleSpan (b e samples : Int) : Except String (List Int) :=
  if samples < 2 then Except.error "too few samples"
  else Except.ok
    (sampleSpanAux (b : ℚ) (((e : ℚ) - (b : ℚ)) * (1 / ((samples : ℚ) - 1))) samples.toNat)

/-- Boolean check that a list of integers never decreases. -/
def nonDecreasing : List Int → Bool
  | p :: q :: t => p ≤ q && nonDecreasing (q :: t)
  | _ => true

/-- The concrete result of sampleSpan(0, 255, 25). -/
def expected25 : List Int :=
  [0, 11, 21, 32, 43, 53, 64, 74, 85, 96, 106, 117, 128, 138, 149, 159,
   170, 181, 191, 202, 213, 223, 234, 244, 255]

/-- static_cast<unsigned char> of an int (cube.hpp lines 33-37): conversion
modulo 2^8. -/
def toUChar (x : Int) : Nat :=
  (x % 256).toNat

/-- The printed 6-decimal fixed-precision rendering of a value q, as a
rational: floor(q * 10^6 + 1/2) / 10^6. For the values the exporter prints
(k / 255 with k an 8-bit integer) the decimal expansion is never exactly
half way between two 6-decimal steps (2 * k * 10^6 / 255 is an integer
only when it is even), and the error of the double computation (relative,
about 1e-16) is far below the 1e-9 distance to the nearest rounding
boundary, so this renders the ostream "fixed, precision 6" output of the
C++ double exactly. -/
def format6 (q : ℚ) : ℚ :=
  (⌊q * 1000000 + 1 / 2⌋ : ℚ) / 1000000

/-- One data line of the cube file (cube.hpp lines 40-44): the three
channels of a dense-LUT entry, each times the quantization factor 1/255,
at 6-decimal fixed precision. -/
def lineOfEntry (rgba : Color) : ℚ × ℚ × ℚ :=
  (format6 ((rgba.r : ℚ) * (1 / 255)), format6 ((rgba.g : ℚ) * (1 / 255)),
   format6 ((rgba.b : ℚ) * (1 / 255)))

/-- The cube file content: the TITLE header, the LUT_3D_SIZE header and the
data lines (the two leading comment lines and the blank lines are fixed
text). -/
structure CubeFile where
  title : String
  lut3dSize : Int
  dataLines : List (ℚ × ℚ × ℚ)

/-- generateCube (cube.hpp lines 15-48; byte-identical copy in main.cpp
lines 46-79). The TITLE holds getBaseName(output_file), computed by the
out-of-scope path collaborator, taken here as an input. LUT_3D_SIZE is the
requested resolution. The data lines follow the C++ loop nest: b_index
outermost, then g_index, then r_index innermost, each running over
sampleSpan(0, 255, cube_res); each line prints the dense-LUT entry at the
hexRGB of the sampled triple, with no interpolation. sampleSpan throws for
cube_res < 2, modelled by propagating its error (in the C++ the header
text is already written when that throw happens, and an unopenable output
file throws before anything else; the file system is out of the model). -/
def generateCube (data : Nat → Color) (cube_res : Int) (title : String) :
    Except String CubeFile :=
  match sampleSpan 0 255 cube_res with
  | Except.error e => Except.error e
  | Except.ok sample_points =>
    Except.ok
      { title := title
        lut3dSize := cube_res
        dataLines :=
          (List.range cube_res.toNat).flatMap fun bIndex =>
            (List.range cube_res.toNat).flatMap fun gIndex =>
              (List.range cube_res.toNat).map fun rIndex =>
                lineOfEntry (data (Color.getHexRGB
                  ⟨toUChar (sample_points.getD rIndex 0),
                   toUChar (sample_points.getD gIndex 0),
                   toUChar (sample_points.getD bIndex 0), 255⟩)) }

/-- One pixel of the batch applier worker (main.cpp lines 253-257): look up
the dense-LUT entry at the pixel's hexRGB, take its r, g and b, and keep
the pixel's own alpha (the entry's alpha is overwritten before the pixel
is stored back). -/
def applyLUTPixel (lut : Nat → Color) (px : Color) : Color :=
  ⟨(lut px.getHexRGB).r, (lut px.getHexRGB).g, (lut px.getHexRGB).b, px.a⟩

/-- The per-file color replacement loop (main.cpp lines 253-257) over the
image's pixel buffer, modelled as the list of its pixels. -/
def applyLUTImage (lut : Nat → Color) (img : List Color) : List Color :=
  img.map (applyLUTPixel lut)

/-- The identity dense LUT: entry n is the color decoded from n. -/
def identityLUT : Nat → Color :=
  fun n => rgbOfHex n

/-- One worker unit of the batch applier (main.cpp lines 246-269): the
unit decodes its input file (the decode outcome is the unit's input here:
an error when the codec failed), remaps every pixel through the shared
read-only dense LUT, and writes its output. Any exception inside the unit
is caught inside the unit (lines 264-268), reported to the error stream,
and stops that unit only. -/
def runUnit (lut : Nat → Color) (input : Except String (List Color)) :
    Except String (List Color) :=
  match input with
  | Except.error e => Except.error e
  | Except.ok img => Except.ok (applyLUTImage lut img)

/-- The batch phase of main (main.cpp lines 217-281): load the dense LUT
from the cache file, then run one unit per input file against the shared
table; the pair holds the per-unit outcomes and the process exit code.
When loading fails, the catch on line 272 reports the error, no unit has
been started, and main still returns 0 (line 281), so the result list is
empty and the exit code is 0 on that path too. -/
def runBatch (lut_file : Option (List Nat))
    (inputs : List (Except String (List Color))) :
    List (Except String (List Color)) × Nat :=
  match loadCacheFromFile lut_file with
  | Except.error _ => ([], 0)
  | Except.ok lut => (inputs.map (runUnit fun n => lut.getD n ⟨0, 0, 0, 0⟩), 0)

/-- The whole run of main when a lutmap image is given (main.cpp lines
149-281): the dense LUT is first built from the lutmap by convertMap
(main.cpp lines 81-139, the same dimension check and build loop as
cacheLUTMap) and persisted to the .lut file; a build failure is caught at
main.cpp lines 195-198, reported to the error stream, and main returns 1
right there, before the batch phase, so no input file is processed. On
success the batch phase loads the persisted file and runs one unit per
input (the in-memory array written by the build is the entry list
(List.range LUT_RAW_DATA_SIZE).map lut). -/
def runMainWithMap (map : Image) (axis : Nat)
    (inputs : List (Except String (List Color))) :
    List (Except String (List Color)) × Nat :=
  match cacheLUTMap map axis with
  | Except.error _ => ([], 1)
  | Except.ok lut =>
    runBatch (some (persistLUT ((List.range LUT_RAW_DATA_SIZE).map lut))) inputs

/-- A lutmap image neither of whose dimensions is 4096: the build rejects
it. -/
def exImgBad : Image :=
  ⟨100, 100, fun _ _ => ⟨0, 0, 0, 255⟩⟩

theorem Color.getHexRGB_eq (c : Color) (hg : c.g < 256) (hb : c.b < 256) :
    c.getHexRGB = c.r * 65536 + c.g * 256 + c.b := by
  unfold Color.getHexRGB
  rw [Nat.shiftLeft_eq, Nat.shiftLeft_eq]
  have h1 : c.g * 2 ^ 8 < 2 ^ 16 := by omega
  have e1 : (2 : Nat) ^ 16 * c.r + c.g * 2 ^ 8 = 2 ^ 16 * c.r ||| c.g * 2 ^ 8 :=
    Nat.mul_add_lt_is_or h1 c.r
  have h2 : c.b < 2 ^ 8 := by omega
  have e2 : (2 : Nat) ^ 8 * (c.r * 256 + c.g) + c.b = 2 ^ 8 * (c.r * 256 + c.g) ||| c.b :=
    Nat.mul_add_lt_is_or h2 _
  calc c.r * 2 ^ 16 ||| c.g * 2 ^ 8 ||| c.b
      = (2 ^ 16 * c.r ||| c.g * 2 ^ 8) ||| c.b := by rw [Nat.mul_comm]
    _ = (2 ^ 16 * c.r + c.g * 2 ^ 8) ||| c.b := by rw [← e1]
    _ = 2 ^ 8 * (c.r * 256 + c.g) ||| c.b := by congr 1; ring
    _ = 2 ^ 8 * (c.r * 256 + c.g) + c.b := by rw [← e2]
    _ = c.r * 65536 + c.g * 256 + c.b := by ring

/-- Consistency of the array index with the decoded color: getHexRGB is a
left inverse of rgbOfHex on the 16777216 dense-LUT indices, which justifies
modelling the array filled by the cacheLUTMap triple loop as a function of
the index. -/
theorem getHexRGB_rgbOfHex (n : Nat) (hn : n < 16777216) :
    (rgbOfHex n).getHexRGB = n := by
  rw [Color.getHexRGB_eq]
  · show n / 65536 % 256 * 65536 + n / 256 % 256 * 256 + n % 256 = n
    omega
  · show n / 256 % 256 < 256
    omega
  · show n % 256 < 256
    omega

/-- Range of the coordinate mapper: for axis 0, 1 or 2 and any 8-bit color,
both coordinates stay below 4096. -/
theorem rgbToMapPosition_lt (c : Color) (axis : Nat) (flip : Bool) (haxis : axis < 3)
    (hr : c.r < 256) (hg : c.g < 256) (hb : c.b < 256) :
    (rgbToMapPosition c axis flip).1 ≤ 4095 ∧ (rgbToMapPosition c axis flip).2 ≤ 4095 := by
  interval_cases axis <;> cases flip <;>
    simp only [rgbToMapPosition, Color.channel] <;>
    norm_num <;> (first | omega | (split_ifs <;> omega))

/-- mapPositionToHex recovers the three channels of the color the coordinate
mapper encoded. -/
theorem mapPositionToHex_rgbToMapPosition_channels (r g b : Nat)
    (hr : r < 256) (hg : g < 256) (hb : b < 256) (axis : Nat) (flip : Bool) (haxis : axis < 3) :
    mapPositionToHex (rgbToMapPosition ⟨r, g, b, 255⟩ axis flip) axis flip =
      r * 65536 + g * 256 + b := by
  interval_cases axis <;> cases flip <;>
    · simp only [rgbToMapPosition, mapPositionToHex, Color.channel]
      norm_num
      first
      | omega
      | (split_ifs <;> omega)

/-- mapPositionToHex is a left inverse of the coordinate mapper on the
dense-LUT indices. -/
theorem mapPositionToHex_rgbToMapPosition (axis : Nat) (flip : Bool) (haxis : axis < 3)
    (n : Nat) (hn : n < 16777216) :
    mapPositionToHex (rgbToMapPosition (rgbOfHex n) axis flip) axis flip = n := by
  have h := mapPositionToHex_rgbToMapPosition_channels (n / 65536 % 256) (n / 256 % 256)
    (n % 256) (by omega) (by omega) (by omega) axis flip haxis
  unfold rgbOfHex
  rw [h]
  omega

/-- The channels of a decoded dense-LUT index are 8-bit values. -/
theorem rgbOfHex_channels_lt (n : Nat) :
    (rgbOfHex n).r < 256 ∧ (rgbOfHex n).g < 256 ∧ (rgbOfHex n).b < 256 := by
  exact ⟨Nat.mod_lt _ (by norm_num), Nat.mod_lt _ (by norm_num), Nat.mod_lt _ (by norm_num)⟩

/-- C1: for every fixed axis in 0, 1, 2 and every fixed flip flag,
rgbToMapPosition maps every 8-bit color into the 4096 by 4096 canvas
(coordinates in 0..4095), and as a function of the 16777216 possible
24-bit RGB values it is a bijection onto the canvas positions. -/
theorem c1_rgbToMapPosition_bijection (axis : Nat) (flip : Bool) (haxis : axis < 3) :
    (∀ c : Color, c.r < 256 → c.g < 256 → c.b < 256 →
      (rgbToMapPosition c axis flip).1 ≤ 4095 ∧ (rgbToMapPosition c axis flip).2 ≤ 4095) ∧
    Set.BijOn (fun n => rgbToMapPosition (rgbOfHex n) axis flip)
      {n : Nat | n < 16777216} {p : Nat × Nat | p.1 ≤ 4095 ∧ p.2 ≤ 4095} := by
  have hbounds : ∀ n : Nat, (rgbOfHex n).r < 256 ∧ (rgbOfHex n).g < 256 ∧ (rgbOfHex n).b < 256 :=
    rgbOfHex_channels_lt
  have hmaps : ∀ n : Nat, n ∈ {n : Nat | n < 16777216} →
      (fun n => rgbToMapPosition (rgbOfHex n) axis flip) n ∈
        {p : Nat × Nat | p.1 ≤ 4095 ∧ p.2 ≤ 4095} := by
    intro n _
    exact rgbToMapPosition_lt (rgbOfHex n) axis flip haxis
      (hbounds n).1 (hbounds n).2.1 (hbounds n).2.2
  have hinj : Set.InjOn (fun n => rgbToMapPosition (rgbOfHex n) axis flip)
      {n : Nat | n < 16777216} := by
    intro n1 hn1 n2 hn2 he
    have e1 := mapPositionToHex_rgbToMapPosition axis flip haxis n1 hn1
    have e2 := mapPositionToHex_rgbToMapPosition axis flip haxis n2 hn2
    simp only at he
    rw [← e1, ← e2, he]
  refine ⟨fun c hr hg hb => rgbToMapPosition_lt c axis flip haxis hr hg hb, hmaps, hinj, ?_⟩
  have e2 : ({p : Nat × Nat | p.1 ≤ 4095 ∧ p.2 ≤ 4095} : Set (Nat × Nat)) =
      ↑(Finset.range 4096 ×ˢ Finset.range 4096) := by
    ext p
    simp only [Set.mem_setOf_eq, Finset.coe_product, Set.mem_prod, Finset.mem_coe,
      Finset.mem_range]
    omega
  have e1 : ({n : Nat | n < 16777216} : Set Nat) = ↑(Finset.range 16777216) := by
    ext n
    simp
  have hcard : ({p : Nat × Nat | p.1 ≤ 4095 ∧ p.2 ≤ 4095} : Set (Nat × Nat)).ncard ≤
      ({n : Nat | n < 16777216} : Set Nat).ncard := by
    rw [e1, e2, Set.ncard_coe_Finset, Set.ncard_coe_Finset, Finset.card_product]
    simp
  have hfin : ({p : Nat × Nat | p.1 ≤ 4095 ∧ p.2 ≤ 4095} : Set (Nat × Nat)).Finite := by
    rw [e2]
    exact Finset.finite_toSet _
  intro p hp
  obtain ⟨n, hn, he⟩ := Set.surj_on_of_inj_on_of_ncard_le
    (fun n _ => rgbToMapPosition (rgbOfHex n) axis flip) hmaps
    (fun n1 n2 hn1 hn2 he => hinj hn1 hn2 he) hcard hfin p hp
  exact ⟨n, hn, he.symm⟩

/-- C1 witness: the bijection statement instantiated at the default axis B
with tile flipping on. -/
theorem c1_witness :
    2 < 3 ∧
    ((∀ c : Color, c.r < 256 → c.g < 256 → c.b < 256 →
      (rgbToMapPosition c 2 true).1 ≤ 4095 ∧ (rgbToMapPosition c 2 true).2 ≤ 4095) ∧
    Set.BijOn (fun n => rgbToMapPosition (rgbOfHex n) 2 true)
      {n : Nat | n < 16777216} {p : Nat × Nat | p.1 ≤ 4095 ∧ p.2 ≤ 4095}) :=
  ⟨by norm_num, c1_rgbToMapPosition_bijection 2 true (by norm_num)⟩

/-- C10: the coordinate mapper never reads the alpha channel: two colors
agreeing on R, G and B are mapped to the same position for every axis in
0, 1, 2 and every flip flag. -/
theorem c10_alpha_independence (axis : Nat) (flip : Bool) (haxis : axis < 3)
    (c1 c2 : Color) (hr : c1.r = c2.r) (hg : c1.g = c2.g) (hb : c1.b = c2.b) :
    rgbToMapPosition c1 axis flip = rgbToMapPosition c2 axis flip := by
  obtain ⟨r1, g1, b1, a1⟩ := c1
  obtain ⟨r2, g2, b2, a2⟩ := c2
  dsimp only at hr hg hb
  subst hr
  subst hg
  subst hb
  interval_cases axis <;> rfl

/-- C10 witness: two concrete colors differing only in alpha map to the same
position on the default axis with flipping on. -/
theorem c10_witness :
    (⟨9, 8, 7, 0⟩ : Color).r = (⟨9, 8, 7, 255⟩ : Color).r ∧
    (⟨9, 8, 7, 0⟩ : Color).g = (⟨9, 8, 7, 255⟩ : Color).g ∧
    (⟨9, 8, 7, 0⟩ : Color).b = (⟨9, 8, 7, 255⟩ : Color).b ∧
    rgbToMapPosition ⟨9, 8, 7, 0⟩ 2 true = rgbToMapPosition ⟨9, 8, 7, 255⟩ 2 true :=
  ⟨rfl, rfl, rfl, c10_alpha_independence 2 true (by norm_num) _ _ rfl rfl rfl⟩

/-- C2: refuted as stated, and judged a bug in the code. The dimension check
of cacheLUTMap (lut.hpp line 62) and convertMap (main.cpp line 83) combines
the two comparisons with a logical AND, so an image with width 4096 and
height 1 is accepted and sampling proceeds, although the claim (and the
error message in the code itself, "LUT map size must be 4096 x 4096")
requires rejection of every image that is not exactly 4096 x 4096. -/
theorem c2_dimension_check_accepts_bad_lutmap :
    (exImgWrongHeight.w, exImgWrongHeight.h) ≠ ((4096 : Int), (4096 : Int)) ∧
    ∃ lut, cacheLUTMap exImgWrongHeight 2 = Except.ok lut := by
  constructor
  · simp [exImgWrongHeight]
  · refine ⟨fun n =>
      Image.atXY exImgWrongHeight ((rgbToMapPosition (rgbOfHex n) 2 true).1 : Int)
        ((rgbToMapPosition (rgbOfHex n) 2 true).2 : Int), ?_⟩
    norm_num [cacheLUTMap, exImgWrongHeight]

/-- C9 counterexample: the build loop stores the sampled lutmap color
unchanged (lut.hpp line 91), alpha included. Building from a 4096 x 4096
lutmap whose pixels are transparent yields a dense LUT whose entry 0 has
alpha 0, not 255, refuting the claim that every entry is opaque after a
build. -/
theorem c9_counterexample :
    ∃ lut, cacheLUTMap exImgTransparent 2 = Except.ok lut ∧
      (lut 0).a = 0 ∧ ¬(lut 0).a = 255 := by
  refine ⟨fun n =>
    Image.atXY exImgTransparent ((rgbToMapPosition (rgbOfHex n) 2 true).1 : Int)
      ((rgbToMapPosition (rgbOfHex n) 2 true).2 : Int), ?_, ?_, ?_⟩
  · norm_num [cacheLUTMap, exImgTransparent]
  · decide
  · decide

/-- C9 amended: each entry of a built dense LUT stores the sampled lutmap
pixel unchanged, so its alpha equals that pixel's alpha; in particular when
every pixel of the lutmap is opaque, every one of the 16777216 entries has
alpha 255. -/
theorem c9_amended_build_alpha (map : Image) (axis : Nat)
    (halpha : ∀ x y, (map.pix x y).a = 255) :
    ∀ lut, cacheLUTMap map axis = Except.ok lut → ∀ n, (lut n).a = 255 := by
  intro lut hlut n
  unfold cacheLUTMap at hlut
  split at hlut
  · exact absurd hlut (by simp)
  · injection hlut with h
    subst h
    simp only [Image.atXY]
    exact halpha _ _

/-- C9 witness: the amended statement applied to a concrete opaque lutmap. -/
theorem c9_witness :
    (∀ x y, (exImgOpaque.pix x y).a = 255) ∧
    (∀ lut, cacheLUTMap exImgOpaque 2 = Except.ok lut → ∀ n, (lut n).a = 255) :=
  ⟨fun _ _ => rfl, c9_amended_build_alpha exImgOpaque 2 (fun _ _ => rfl)⟩

/-- Length of a flat concatenation of constant-length blocks. -/
theorem flatMap_length_const {α β : Type} (l : List α) (f : α → List β) (c : Nat)
    (h : ∀ x ∈ l, (f x).length = c) : (l.flatMap f).length = l.length * c := by
  induction l with
  | nil => simp
  | cons x xs ih =>
    simp only [List.flatMap_cons, List.length_append, List.length_cons]
    rw [h x (by simp), ih (fun y hy => h y (by simp [hy]))]
    ring

/-- Indexing into a flat concatenation of constant-length blocks. -/
theorem flatMap_getElem?_const {α β : Type} (l : List α) (f : α → List β) (c : Nat)
    (h : ∀ x ∈ l, (f x).length = c) (i j : Nat) (x : α)
    (hx : l[i]? = some x) (hj : j < c) :
    (l.flatMap f)[i * c + j]? = (f x)[j]? := by
  induction l generalizing i with
  | nil => simp at hx
  | cons y ys ih =>
    cases i with
    | zero =>
      simp only [List.getElem?_cons_zero, Option.some.injEq] at hx
      subst hx
      simp only [List.flatMap_cons]
      have hj2 : 0 * c + j < (f y).length := by rw [h y (by simp)]; omega
      rw [List.getElem?_append_left hj2]
      have hz : 0 * c + j = j := by ring
      rw [hz]
    | succ i2 =>
      simp only [List.getElem?_cons_succ] at hx
      simp only [List.flatMap_cons]
      rw [Nat.succ_mul]
      have hge : (f y).length ≤ i2 * c + c + j := by rw [h y (by simp)]; omega
      rw [List.getElem?_append_right hge, h y (by simp)]
      have heq : i2 * c + c + j - c = i2 * c + j := by omega
      rw [heq]
      exact ih (fun z hz => h z (by simp [hz])) i2 hx

/-- Unfolding lemma for loading from an openable file. -/
theorem loadCacheFromFile_some (bytes : List Nat) :
    loadCacheFromFile (some bytes) =
      if bytes.length < LUT_RAW_DATA_SIZE * 4 then Except.error "invalid LUT file"
      else Except.ok (bytesToColors (bytes.take (LUT_RAW_DATA_SIZE * 4))) := rfl

/-- Parsing inverts serialization. -/
theorem bytesToColors_persistLUT (d : List Color) : bytesToColors (persistLUT d) = d := by
  induction d with
  | nil => rfl
  | cons c rest ih =>
    simp only [persistLUT, List.flatMap_cons, serializeColor, List.cons_append,
      List.nil_append] at ih ⊢
    rw [bytesToColors, ih]

/-- Serialization inverts parsing on buffers of entry-aligned length. -/
theorem persistLUT_bytesToColors (n : Nat) (l : List Nat) (hl : l.length = 4 * n) :
    persistLUT (bytesToColors l) = l := by
  induction n generalizing l with
  | zero =>
    cases l with
    | nil => rfl
    | cons x t => simp at hl
  | succ m ih =>
    cases l with
    | nil => simp at hl
    | cons r t1 =>
      cases t1 with
      | nil => simp at hl; omega
      | cons g t2 =>
        cases t2 with
        | nil => simp at hl; omega
        | cons b t3 =>
          cases t3 with
          | nil => simp at hl; omega
          | cons a rest =>
            have hrest : rest.length = 4 * m := by simp at hl; omega
            have ih2 := ih rest hrest
            simp only [persistLUT] at ih2 ⊢
            rw [bytesToColors]
            simp only [List.flatMap_cons, serializeColor, List.cons_append, List.nil_append]
            rw [ih2]

/-- A parsed buffer holds one entry per four bytes. -/
theorem bytesToColors_length : ∀ l : List Nat, (bytesToColors l).length = l.length / 4
  | r :: g :: b :: a :: rest => by
    have ih := bytesToColors_length rest
    rw [bytesToColors]
    simp only [List.length_cons]
    omega
  | [] => rfl
  | [x] => by simp [bytesToColors]
  | [x, y] => by simp [bytesToColors]
  | [x, y, z] => by simp [bytesToColors]

/-- C3: build, persist, load round-trips to an identical dense LUT; the
persisted stream is the flat header-free sequence of the 16777216
four-byte entries in array order; and load followed by persist reproduces
the byte stream. -/
theorem c3_cache_roundtrip (d : List Color) (hd : d.length = LUT_RAW_DATA_SIZE) :
    loadCacheFromFile (some (persistLUT d)) = Except.ok d ∧
    (persistLUT d).length = LUT_RAW_DATA_SIZE * 4 ∧
    (∀ i j x, j < 4 → d[i]? = some x →
      (persistLUT d)[i * 4 + j]? = (serializeColor x)[j]?) ∧
    (∀ bytes l, loadCacheFromFile (some bytes) = Except.ok l →
      bytes.length = LUT_RAW_DATA_SIZE * 4 → persistLUT l = bytes) := by
  have hlen : (persistLUT d).length = d.length * 4 :=
    flatMap_length_const d serializeColor 4 (fun x _ => rfl)
  refine ⟨?_, ?_, ?_, ?_⟩
  · rw [loadCacheFromFile_some, if_neg (by omega)]
    rw [List.take_of_length_le (by omega), bytesToColors_persistLUT]
  · omega
  · intro i j x hj hx
    exact flatMap_getElem?_const d serializeColor 4 (fun y _ => rfl) i j x hx hj
  · intro bytes l hl hblen
    rw [loadCacheFromFile_some, if_neg (by omega)] at hl
    injection hl with h
    subst h
    rw [List.take_of_length_le (by omega)]
    exact persistLUT_bytesToColors LUT_RAW_DATA_SIZE bytes (by omega)

/-- C3 witness: the round trip on a concrete full-size dense LUT. -/
theorem c3_witness :
    (List.replicate LUT_RAW_DATA_SIZE (⟨0, 0, 0, 255⟩ : Color)).length = LUT_RAW_DATA_SIZE ∧
    loadCacheFromFile (some (persistLUT (List.replicate LUT_RAW_DATA_SIZE ⟨0, 0, 0, 255⟩))) =
      Except.ok (List.replicate LUT_RAW_DATA_SIZE ⟨0, 0, 0, 255⟩) :=
  ⟨by simp, (c3_cache_roundtrip _ (by simp)).1⟩

/-- C7: loading a cache file shorter than 16777216 * 4 bytes, or one that
cannot be opened, fails with an error; a successful load always returns a
fully populated table of exactly 16777216 entries, read from a file of at
least 16777216 * 4 bytes, so no error path hands back a table at all. -/
theorem c7_load_truncated_fails (bytes : List Nat)
    (hshort : bytes.length < LUT_RAW_DATA_SIZE * 4) :
    loadCacheFromFile (some bytes) = Except.error "invalid LUT file" ∧
    loadCacheFromFile none = Except.error "unable to open LUT file" ∧
    (∀ file l, loadCacheFromFile file = Except.ok l →
      l.length = LUT_RAW_DATA_SIZE ∧
      ∃ bs, file = some bs ∧ LUT_RAW_DATA_SIZE * 4 ≤ bs.length) := by
  refine ⟨?_, rfl, ?_⟩
  · rw [loadCacheFromFile_some, if_pos hshort]
  · intro file l hl
    match file with
    | none => exact absurd hl (by simp [loadCacheFromFile])
    | some bs =>
      rw [loadCacheFromFile_some] at hl
      by_cases hc : bs.length < LUT_RAW_DATA_SIZE * 4
      · rw [if_pos hc] at hl
        exact absurd hl (by simp)
      · rw [if_neg hc] at hl
        injection hl with h
        subst h
        refine ⟨?_, bs, rfl, by omega⟩
        rw [bytesToColors_length, List.length_take]
        omega

/-- C7 witness: the empty file is shorter than a full cache and is
rejected. -/
theorem c7_witness :
    ([] : List Nat).length < LUT_RAW_DATA_SIZE * 4 ∧
    loadCacheFromFile (some []) = Except.error "invalid LUT file" :=
  ⟨by norm_num [LUT_RAW_DATA_SIZE], (c7_load_truncated_fails [] (by norm_num [LUT_RAW_DATA_SIZE])).1⟩

/-- roundHalfAway is floor of the half-shifted value, mirrored on negative
arguments. -/
theorem roundHalfAway_eq_floor (q : ℚ) :
    roundHalfAway q = if q < 0 then -⌊-q + 1 / 2⌋ else ⌊q + 1 / 2⌋ := by
  unfold roundHalfAway
  split_ifs <;> rw [Rat.floor_def]

/-- Rounding an integer returns it. -/
theorem roundHalfAway_intCast (z : Int) : roundHalfAway (z : ℚ) = z := by
  rw [roundHalfAway_eq_floor]
  split
  · rw [← Int.cast_neg, add_comm, Int.floor_add_int]
    norm_num
  · rw [add_comm, Int.floor_add_int]
    norm_num

theorem sampleSpanAux_length (v step : ℚ) (n : Nat) : (sampleSpanAux v step n).length = n := by
  induction n generalizing v with
  | zero => rfl
  | succ m ih => simp [sampleSpanAux, ih]

theorem sampleSpanAux_getElem? (v step : ℚ) (n i : Nat) (hi : i < n) :
    (sampleSpanAux v step n)[i]? = some (roundHalfAway (v + i * step)) := by
  induction n generalizing v i with
  | zero => omega
  | succ m ih =>
    cases i with
    | zero => simp [sampleSpanAux]
    | succ i2 =>
      simp only [sampleSpanAux, List.getElem?_cons_succ]
      rw [ih (v + step) i2 (by omega)]
      congr 2
      push_cast
      ring

/-- C6: for count at least 2, sampleSpan returns exactly count integers,
element i being begin + i * (end - begin) / (count - 1) rounded to nearest,
with first element begin and last element end exactly; for count below 2 it
fails with the validation error; and the concrete instance
sampleSpan(0, 255, 25) has length 25, first element 0, last element 255 and
is non-decreasing, while sampleSpan(0, 255, 1) fails. -/
theorem c6_sampleSpan (b e c : Int) (hc : 2 ≤ c) :
    (∃ l, sampleSpan b e c = Except.ok l ∧
      l.length = c.toNat ∧
      (∀ i : Nat, i < c.toNat →
        l[i]? = some (roundHalfAway
          ((b : ℚ) + (i : ℚ) * (((e : ℚ) - (b : ℚ)) * (1 / ((c : ℚ) - 1)))))) ∧
      l[0]? = some b ∧
      l[c.toNat - 1]? = some e) ∧
    (∀ c2 : Int, c2 < 2 → sampleSpan b e c2 = Except.error "too few samples") ∧
    sampleSpan 0 255 25 = Except.ok expected25 ∧
    expected25.length = 25 ∧
    expected25[0]? = some 0 ∧
    expected25[24]? = some 255 ∧
    nonDecreasing expected25 = true ∧
    sampleSpan 0 255 1 = Except.error "too few samples" := by
  have hcq : ((c : ℚ) - 1) ≠ 0 := by
    have h2 : (2 : ℚ) ≤ (c : ℚ) := by exact_mod_cast hc
    intro h
    rw [sub_eq_zero] at h
    rw [h] at h2
    norm_num at h2
  have hstep : ∀ i : Nat, i < c.toNat →
      (sampleSpanAux (b : ℚ) (((e : ℚ) - (b : ℚ)) * (1 / ((c : ℚ) - 1))) c.toNat)[i]? =
        some (roundHalfAway
          ((b : ℚ) + (i : ℚ) * (((e : ℚ) - (b : ℚ)) * (1 / ((c : ℚ) - 1))))) :=
    fun i hi => sampleSpanAux_getElem? _ _ _ i hi
  refine ⟨⟨_, ?_, sampleSpanAux_length _ _ _, hstep, ?_, ?_⟩, ?_,
    by unfold sampleSpan; norm_num [sampleSpanAux, roundHalfAway_eq_floor, expected25],
    by decide, by decide, by decide, by decide,
    by unfold sampleSpan; norm_num⟩
  · unfold sampleSpan
    rw [if_neg (by omega)]
  · rw [hstep 0 (by omega)]
    norm_num [roundHalfAway_intCast]
  · rw [hstep (c.toNat - 1) (by omega)]
    have hcast : ((c.toNat - 1 : Nat) : ℚ) = (c : ℚ) - 1 := by
      have h1 : ((c.toNat : Int) : ℚ) = (c : ℚ) := by
        rw [Int.toNat_of_nonneg (by omega)]
      push_cast
      rw [← h1]
      have : (1 : Nat) ≤ c.toNat := by omega
      push_cast [Nat.cast_sub this]
      norm_num
    rw [hcast]
    have harg : (b : ℚ) + ((c : ℚ) - 1) * (((e : ℚ) - (b : ℚ)) * (1 / ((c : ℚ) - 1))) =
        ((e : Int) : ℚ) := by
      field_simp
    rw [harg, roundHalfAway_intCast]
  · intro c2 hc2
    unfold sampleSpan
    rw [if_pos hc2]

/-- C6 witness: the general statement applied at begin 0, end 255,
count 25. -/
theorem c6_witness :
    (2 : Int) ≤ 25 ∧
    ∃ l, sampleSpan 0 255 25 = Except.ok l ∧
      l.length = (25 : Int).toNat ∧
      (∀ i : Nat, i < (25 : Int).toNat →
        l[i]? = some (roundHalfAway
          (((0 : Int) : ℚ) + (i : ℚ) *
            ((((255 : Int) : ℚ) - ((0 : Int) : ℚ)) * (1 / (((25 : Int) : ℚ) - 1)))))) ∧
      l[0]? = some 0 ∧
      l[(25 : Int).toNat - 1]? = some 255 :=
  ⟨by norm_num, (c6_sampleSpan 0 255 25 (by norm_num)).1⟩

/-- A printed channel value lies in the unit interval. -/
theorem format6_mem_unit (k : Nat) (hk : k < 256) :
    0 ≤ format6 ((k : ℚ) * (1 / 255)) ∧ format6 ((k : ℚ) * (1 / 255)) ≤ 1 := by
  have hk255 : (k : ℚ) ≤ 255 := by
    have h : k ≤ 255 := by omega
    exact_mod_cast h
  have h0 : (0 : ℚ) ≤ (k : ℚ) := Nat.cast_nonneg k
  have harg0 : (0 : ℚ) ≤ (k : ℚ) * (1 / 255) * 1000000 + 1 / 2 := by positivity
  have harg1 : (k : ℚ) * (1 / 255) * 1000000 + 1 / 2 < ((1000001 : Int) : ℚ) := by
    push_cast
    nlinarith
  have hfl0 : (0 : Int) ≤ ⌊(k : ℚ) * (1 / 255) * 1000000 + 1 / 2⌋ :=
    Int.floor_nonneg.mpr harg0
  have hfl1 : ⌊(k : ℚ) * (1 / 255) * 1000000 + 1 / 2⌋ < 1000001 := Int.floor_lt.mpr harg1
  unfold format6
  constructor
  · apply div_nonneg _ (by norm_num)
    exact_mod_cast hfl0
  · rw [div_le_one (by norm_num)]
    have h6 : ⌊(k : ℚ) * (1 / 255) * 1000000 + 1 / 2⌋ ≤ 1000000 := by omega
    exact_mod_cast h6

/-- Unfolding lemma for the exporter when the sampler succeeds. -/
theorem generateCube_ok (data : Nat → Color) (cube_res : Int) (title : String)
    (sample_points : List Int)
    (h : sampleSpan 0 255 cube_res = Except.ok sample_points) :
    generateCube data cube_res title = Except.ok
      { title := title
        lut3dSize := cube_res
        dataLines :=
          (List.range cube_res.toNat).flatMap fun bIndex =>
            (List.range cube_res.toNat).flatMap fun gIndex =>
              (List.range cube_res.toNat).map fun rIndex =>
                lineOfEntry (data (Color.getHexRGB
                  ⟨toUChar (sample_points.getD rIndex 0),
                   toUChar (sample_points.getD gIndex 0),
                   toUChar (sample_points.getD bIndex 0), 255⟩)) } := by
  unfold generateCube
  rw [h]

/-- C5: for every dense LUT and resolution R at least 2, the exporter
reports LUT_3D_SIZE equal to R, emits exactly R^3 data lines whose three
6-decimal values all lie in the unit interval, and line
(b * R + g) * R + r holds the entry at the hexRGB of the sampled
quantized triple (r fastest-varying, b slowest), divided by 255 with no
interpolation. -/
theorem c5_generateCube (data : Nat → Color) (cube_res : Int) (title : String)
    (hres : 2 ≤ cube_res)
    (hdata : ∀ n, (data n).r < 256 ∧ (data n).g < 256 ∧ (data n).b < 256) :
    ∃ cube sample_points,
      sampleSpan 0 255 cube_res = Except.ok sample_points ∧
      generateCube data cube_res title = Except.ok cube ∧
      cube.lut3dSize = cube_res ∧
      cube.dataLines.length = cube_res.toNat ^ 3 ∧
      (∀ line ∈ cube.dataLines, (0 ≤ line.1 ∧ line.1 ≤ 1) ∧
        (0 ≤ line.2.1 ∧ line.2.1 ≤ 1) ∧ (0 ≤ line.2.2 ∧ line.2.2 ≤ 1)) ∧
      (∀ bIndex gIndex rIndex : Nat,
        bIndex < cube_res.toNat → gIndex < cube_res.toNat → rIndex < cube_res.toNat →
        cube.dataLines[(bIndex * cube_res.toNat + gIndex) * cube_res.toNat + rIndex]? =
          some (lineOfEntry (data (Color.getHexRGB
            ⟨toUChar (sample_points.getD rIndex 0), toUChar (sample_points.getD gIndex 0),
             toUChar (sample_points.getD bIndex 0), 255⟩)))) := by
  have hss : sampleSpan 0 255 cube_res = Except.ok
      (sampleSpanAux ((0 : Int) : ℚ)
        ((((255 : Int) : ℚ) - ((0 : Int) : ℚ)) * (1 / ((cube_res : ℚ) - 1)))
        cube_res.toNat) := by
    unfold sampleSpan
    rw [if_neg (by omega)]
  set sp := sampleSpanAux ((0 : Int) : ℚ)
    ((((255 : Int) : ℚ) - ((0 : Int) : ℚ)) * (1 / ((cube_res : ℚ) - 1))) cube_res.toNat with hsp
  have hcube := generateCube_ok data cube_res title sp hss
  refine ⟨_, sp, hss, hcube, rfl, ?_, ?_, ?_⟩
  · show ((List.range cube_res.toNat).flatMap _).length = cube_res.toNat ^ 3
    rw [flatMap_length_const _ _ (cube_res.toNat * cube_res.toNat)
      (fun bI _ => by
        rw [flatMap_length_const _ _ cube_res.toNat
          (fun gI _ => by rw [List.length_map, List.length_range])]
        rw [List.length_range])]
    rw [List.length_range]
    ring
  · intro line hline
    simp only [List.mem_flatMap, List.mem_map] at hline
    obtain ⟨bI, _, gI, _, rI, _, hline⟩ := hline
    subst hline
    dsimp only [lineOfEntry]
    exact ⟨format6_mem_unit _ (hdata _).1, format6_mem_unit _ (hdata _).2.1,
      format6_mem_unit _ (hdata _).2.2⟩
  · intro bI gI rI hbI hgI hrI
    show ((List.range cube_res.toNat).flatMap _)[(bI * cube_res.toNat + gI) *
      cube_res.toNat + rI]? = _
    have hidx : (bI * cube_res.toNat + gI) * cube_res.toNat + rI =
        bI * (cube_res.toNat * cube_res.toNat) + (gI * cube_res.toNat + rI) := by ring
    rw [hidx]
    rw [flatMap_getElem?_const _ _ (cube_res.toNat * cube_res.toNat)
      (fun bJ _ => by
        rw [flatMap_length_const _ _ cube_res.toNat
          (fun gJ _ => by rw [List.length_map, List.length_range])]
        rw [List.length_range])
      bI (gI * cube_res.toNat + rI) bI (by simp [hbI])
      (by
        have hg1 : gI + 1 ≤ cube_res.toNat := hgI
        have : gI * cube_res.toNat + rI < (gI + 1) * cube_res.toNat := by
          rw [Nat.succ_mul]
          omega
        have hmul : (gI + 1) * cube_res.toNat ≤ cube_res.toNat * cube_res.toNat :=
          Nat.mul_le_mul_right _ hg1
        omega)]
    rw [flatMap_getElem?_const _ _ cube_res.toNat
      (fun gJ _ => by rw [List.length_map, List.length_range])
      gI rI gI (by simp [hgI]) hrI]
    rw [List.getElem?_map]
    simp [List.getElem?_range, hrI]

/-- C5 witness: the exporter statement at resolution 2 on the all-black
dense LUT. -/
theorem c5_witness :
    (2 : Int) ≤ 2 ∧
    (∀ n : Nat, ((fun _ => (⟨0, 0, 0, 255⟩ : Color)) n).r < 256 ∧
      ((fun _ => (⟨0, 0, 0, 255⟩ : Color)) n).g < 256 ∧
      ((fun _ => (⟨0, 0, 0, 255⟩ : Color)) n).b < 256) ∧
    ∃ cube sample_points,
      sampleSpan 0 255 2 = Except.ok sample_points ∧
      generateCube (fun _ => ⟨0, 0, 0, 255⟩) 2 "lutmap" = Except.ok cube ∧
      cube.lut3dSize = 2 ∧
      cube.dataLines.length = (2 : Int).toNat ^ 3 ∧
      (∀ line ∈ cube.dataLines, (0 ≤ line.1 ∧ line.1 ≤ 1) ∧
        (0 ≤ line.2.1 ∧ line.2.1 ≤ 1) ∧ (0 ≤ line.2.2 ∧ line.2.2 ≤ 1)) ∧
      (∀ bIndex gIndex rIndex : Nat,
        bIndex < (2 : Int).toNat → gIndex < (2 : Int).toNat → rIndex < (2 : Int).toNat →
        cube.dataLines[(bIndex * (2 : Int).toNat + gIndex) * (2 : Int).toNat + rIndex]? =
          some (lineOfEntry ((fun _ => (⟨0, 0, 0, 255⟩ : Color)) (Color.getHexRGB
            ⟨toUChar (sample_points.getD rIndex 0), toUChar (sample_points.getD gIndex 0),
             toUChar (sample_points.getD bIndex 0), 255⟩)))) :=
  ⟨by norm_num, fun n => by norm_num,
    c5_generateCube (fun _ => ⟨0, 0, 0, 255⟩) 2 "lutmap" (by norm_num) (fun n => by norm_num)⟩

/-- The identity dense LUT leaves every 8-bit pixel unchanged. -/
theorem applyLUTPixel_identity (px : Color)
    (hr : px.r < 256) (hg : px.g < 256) (hb : px.b < 256) :
    applyLUTPixel identityLUT px = px := by
  obtain ⟨r, g, b, a⟩ := px
  dsimp only at hr hg hb
  unfold applyLUTPixel identityLUT
  rw [Color.getHexRGB_eq _ hg hb]
  dsimp only [rgbOfHex]
  simp only [Color.mk.injEq]
  refine ⟨?_, ?_, ?_, trivial⟩ <;> omega

/-- C4: the batch applier maps each pixel independently; the output pixel
takes r, g, b from the dense-LUT entry at the input pixel's hexRGB and
keeps the input pixel's alpha regardless of the entry's stored alpha; and
the identity dense LUT reproduces any 8-bit image exactly. -/
theorem c4_applyLUT (lut : Nat → Color) (img : List Color) :
    (applyLUTImage lut img).length = img.length ∧
    (∀ i : Nat, (applyLUTImage lut img)[i]? = (img[i]?).map fun px =>
      ⟨(lut px.getHexRGB).r, (lut px.getHexRGB).g, (lut px.getHexRGB).b, px.a⟩) ∧
    ((∀ px ∈ img, px.r < 256 ∧ px.g < 256 ∧ px.b < 256) →
      applyLUTImage identityLUT img = img) := by
  refine ⟨by simp [applyLUTImage], ?_, ?_⟩
  · intro i
    simp only [applyLUTImage, List.getElem?_map]
    rfl
  · intro hpx
    unfold applyLUTImage
    induction img with
    | nil => rfl
    | cons px rest ih =>
      rw [List.map_cons]
      rw [applyLUTPixel_identity px (hpx px (by simp)).1 (hpx px (by simp)).2.1
        (hpx px (by simp)).2.2]
      rw [ih (fun q hq => hpx q (by simp [hq]))]

/-- C4 witness: the identity dense LUT reproduces a concrete one-pixel
image, alpha included. -/
theorem c4_witness :
    (∀ px ∈ [(⟨1, 2, 3, 9⟩ : Color)], px.r < 256 ∧ px.g < 256 ∧ px.b < 256) ∧
    applyLUTImage identityLUT [⟨1, 2, 3, 9⟩] = [⟨1, 2, 3, 9⟩] :=
  ⟨by decide, (c4_applyLUT identityLUT [⟨1, 2, 3, 9⟩]).2.2 (by decide)⟩

/-- C8: a failure confined to one input file stays inside that unit: every
unit's outcome is a function of its own input alone (so sibling units are
unaffected and a failing unit keeps its reported error in its own slot),
and the process exit code is 0 whether or not units failed; whereas a
failure to load the dense LUT aborts the whole batch before any unit runs
(the outcome list is empty), and a failure to build the dense LUT from a
lutmap is fatal as well: main returns exit code 1 with no input file
processed, while a successful build hands the persisted table to the
batch phase. -/
theorem c8_batch_isolation (map : Image) (axis : Nat) (lut_file : Option (List Nat))
    (inputs : List (Except String (List Color))) :
    (runBatch lut_file inputs).2 = 0 ∧
    (∀ lut, loadCacheFromFile lut_file = Except.ok lut →
      (runBatch lut_file inputs).1.length = inputs.length ∧
      (∀ i : Nat, (runBatch lut_file inputs).1[i]? =
        (inputs[i]?).map (runUnit fun n => lut.getD n ⟨0, 0, 0, 0⟩)) ∧
      (∀ (i : Nat) (e : String), inputs[i]? = some (Except.error e) →
        (runBatch lut_file inputs).1[i]? = some (Except.error e))) ∧
    (∀ e, loadCacheFromFile lut_file = Except.error e →
      (runBatch lut_file inputs).1 = []) ∧
    (∀ e, cacheLUTMap map axis = Except.error e →
      runMainWithMap map axis inputs = ([], 1)) ∧
    (∀ lut, cacheLUTMap map axis = Except.ok lut →
      runMainWithMap map axis inputs =
        runBatch (some (persistLUT ((List.range LUT_RAW_DATA_SIZE).map lut))) inputs) := by
  have hbuild : (∀ e, cacheLUTMap map axis = Except.error e →
      runMainWithMap map axis inputs = ([], 1)) ∧
      (∀ lut, cacheLUTMap map axis = Except.ok lut →
        runMainWithMap map axis inputs =
          runBatch (some (persistLUT ((List.range LUT_RAW_DATA_SIZE).map lut))) inputs) := by
    unfold runMainWithMap
    constructor
    · intro e he
      rw [he]
    · intro lut hlut
      rw [hlut]
  refine ⟨?_, ?_, ?_, hbuild.1, hbuild.2⟩
  · unfold runBatch
    cases h : loadCacheFromFile lut_file <;> rfl
  · intro lut hlut
    unfold runBatch
    rw [hlut]
    refine ⟨by simp, fun i => by simp [List.getElem?_map], ?_⟩
    intro i e hi
    simp [List.getElem?_map, hi, runUnit]
  · intro e2 he2
    unfold runBatch
    rw [he2]

/-- C8 witness: with an unopenable cache file the batch runs no unit at
all, and with a 100 x 100 lutmap the build fails and the whole run aborts
with exit code 1 before any unit runs. -/
theorem c8_witness :
    loadCacheFromFile none = Except.error "unable to open LUT file" ∧
    (runBatch none [Except.error "failed to load image file"]).1 = [] ∧
    cacheLUTMap exImgBad 2 = Except.error "LUT map size must be 4096 x 4096" ∧
    runMainWithMap exImgBad 2 [Except.error "failed to load image file"] = ([], 1) := by
  have hbad : cacheLUTMap exImgBad 2 = Except.error "LUT map size must be 4096 x 4096" := by
    norm_num [cacheLUTMap, exImgBad]
  refine ⟨rfl, ?_, hbad, ?_⟩
  · exact (c8_batch_isolation exImgBad 2 none
      [Except.error "failed to load image file"]).2.2.1 "unable to open LUT file" rfl
  · exact (c8_batch_isolation exImgBad 2 none
      [Except.error "failed to load image file"]).2.2.2.1
      "LUT map size must be 4096 x 4096" hbad

end Lutools
